import Mathlib

/-!
Verification development for the HMS appointment system (`src/app.py`,
`src/database.py`).

The embedding translates the store-level behaviour of the booking core:

* dates are day indices (`Nat`), times are minutes since midnight (`Nat`);
  the SQLite TEXT columns `%Y-%m-%d` and `%H:%M` compare exactly like these
  numbers, and `datetime` comparison of `date + " " + time` strings is the
  lexicographic comparison `dtBefore`;
* each SQLite table in scope becomes a list field of `DB`; the `user` table
  is projected to the list of existing `user_id`s, the only column the
  embedded operations consult (`JOIN user` in `update_treatment`, the
  `SELECT name FROM user` look-ups);
* `AUTOINCREMENT` keys become the `next_app_id` / `next_user_id` counters;
* the `UNIQUE(doctor_id, date, time)` constraint of the `appointment`
  table becomes the explicit row-existence test guarding every insert,
  which rejects with `IntegrityError` exactly when SQLite would;
* each Flask route in scope becomes a function from its inputs and a `DB`
  to a result code and the `DB` after the request (commit or rollback).
-/

namespace HMS

/-- Appointment status column: `CHECK(status IN ('Booked','Completed','Cancelled'))`. -/
inductive Status where
  | Booked
  | Completed
  | Cancelled
deriving DecidableEq

/-- A row of the `appointment` table. -/
structure Appointment where
  app_id : Nat
  patient_id : Nat
  doctor_id : Nat
  date : Nat
  time : Nat
  status : Status
deriving DecidableEq

/-- A row of the `doctor_availability` table. -/
structure Availability where
  doctor_id : Nat
  date : Nat
  start_time : Nat
  end_time : Nat
deriving DecidableEq

/-- A row of the `treatment` table (the generated `treatment_id` is omitted:
no operation in scope reads it; `app_id` carries the UNIQUE constraint). -/
structure Treatment where
  app_id : Nat
  diagnosis : String
  prescription : String
  notes : String
deriving DecidableEq

/-- The database state: the tables touched by the booking core, plus the
`AUTOINCREMENT` counters.  `users` is the set of `user_id`s present in the
`user` table. -/
structure DB where
  users : List Nat
  appointments : List Appointment
  treatments : List Treatment
  availability : List Availability
  next_app_id : Nat
  next_user_id : Nat
deriving DecidableEq

/-- `init_db` seeds exactly one user (the admin, `user_id = 1`) and no
appointments, treatments or availability rows. -/
def initDB : DB :=
  { users := [1], appointments := [], treatments := [], availability := []
    next_app_id := 1, next_user_id := 2 }

/-- `datetime.strptime(f'{date_str} {time_str}') < now`: lexicographic
comparison of (date, time) pairs, mirroring Python datetime comparison. -/
def dtBefore (d t nowD nowT : Nat) : Bool :=
  d < nowD || (d == nowD && t < nowT)

/-- A derived 30-minute slot as built by `check_doctor_availability`:
start time, end time (`strftime('%H:%M')` wraps at midnight, hence the
`% 1440`), and occupancy flag. -/
structure Slot where
  time : Nat
  end_time : Nat
  is_booked : Bool
deriving DecidableEq

/-- One loop body of the slot walk: the slot starting at `cur`, its end time
(`strftime` wraps at midnight), and the occupancy flag
`booked_map.get((avail_date, slot_time), False)`. -/
def mkSlot (booked : List (Nat × Nat)) (d cur : Nat) : Slot :=
  { time := cur, end_time := (cur + 30) % 1440,
    is_booked := booked.any (fun q => q.1 == d && q.2 == cur) }

/-- The `while current_dt < end_dt_limit` loop of `check_doctor_availability`
with an explicit structural fuel (so that the kernel can evaluate it); the
fuel only bounds the iteration count and `walkSlots` below supplies enough of
it, as `walkSlots_eq` proves. -/
def walkSlotsAux (booked : List (Nat × Nat)) (d limit : Nat) :
    Nat → Nat → List Slot
  | 0, _ => []
  | fuel + 1, cur =>
      if cur < limit then
        mkSlot booked d cur :: walkSlotsAux booked d limit fuel (cur + 30)
      else []

/-- The slot walk: emit a slot every 30 minutes starting at `cur`, as long as
the slot start is strictly below `limit`. -/
def walkSlots (booked : List (Nat × Nat)) (d cur limit : Nat) : List Slot :=
  walkSlotsAux booked d limit (limit - cur) cur

/-- The fuel is irrelevant as long as it dominates `limit - cur`: every 30
minutes of remaining window consumes at most one unit. -/
theorem walkSlotsAux_congr (booked : List (Nat × Nat)) (d limit : Nat) :
    ∀ f1 f2 cur, limit - cur ≤ f1 → limit - cur ≤ f2 →
      walkSlotsAux booked d limit f1 cur = walkSlotsAux booked d limit f2 cur := by
  intro f1
  induction f1 with
  | zero =>
      intro f2 cur h1 h2
      cases f2 with
      | zero => rfl
      | succ f2 =>
          simp only [walkSlotsAux]
          rw [if_neg]
          omega
  | succ f1 ih =>
      intro f2 cur h1 h2
      cases f2 with
      | zero =>
          simp only [walkSlotsAux]
          rw [if_neg]
          omega
      | succ f2 =>
          simp only [walkSlotsAux]
          by_cases h : cur < limit
          · rw [if_pos h, if_pos h, ih f2 (cur + 30) (by omega) (by omega)]
          · rw [if_neg h, if_neg h]

/-- The loop unfolding of `walkSlots`: exactly the source's
`while current_dt < end_dt_limit` body. -/
theorem walkSlots_eq (booked : List (Nat × Nat)) (d cur limit : Nat) :
    walkSlots booked d cur limit =
      if cur < limit then
        mkSlot booked d cur :: walkSlots booked d (cur + 30) limit
      else [] := by
  unfold walkSlots
  by_cases h : cur < limit
  · rw [if_pos h]
    have hf : limit - cur = (limit - cur - 1) + 1 := by omega
    rw [hf]
    simp only [walkSlotsAux]
    rw [if_pos h, walkSlotsAux_congr booked d limit (limit - cur - 1)
      (limit - (cur + 30)) (cur + 30) (by omega) (by omega)]
  · rw [if_neg h]
    have hf : limit - cur = 0 := by omega
    rw [hf]
    rfl

/-- The occupied-slot query of `check_doctor_availability`: `(date, time)` of
every appointment of the doctor with `status = 'Booked'` and date in the
window. -/
def booked_map (doctor_id : Nat) (future_dates : List Nat) (db : DB) :
    List (Nat × Nat) :=
  (db.appointments.filter (fun a =>
      a.doctor_id == doctor_id && future_dates.contains a.date
        && a.status == Status.Booked)).map
    (fun a => (a.date, a.time))

/-- The slots generated from one availability row. -/
def resolveWindow (booked : List (Nat × Nat)) (w : Availability) : List Slot :=
  walkSlots booked w.date w.start_time w.end_time

/-- `ORDER BY date, start_time` of the availability query. -/
def availLE (w1 w2 : Availability) : Bool :=
  decide (w1.date < w2.date)
    || (w1.date == w2.date && decide (w1.start_time ≤ w2.start_time))

/-- Insertion into a list sorted by `availLE`. -/
def insertSorted (w : Availability) : List Availability → List Availability
  | [] => [w]
  | x :: xs => if availLE w x then w :: x :: xs else x :: insertSorted w xs

/-- Sorting by `availLE` (insertion sort, structurally recursive so the
kernel can evaluate it); realises the `ORDER BY date, start_time` of the
availability query — the sort is unambiguous because the filtered rows are
unique per `(date, start_time)` by the table's UNIQUE constraint. -/
def sortAvail : List Availability → List Availability
  | [] => []
  | x :: xs => insertSorted x (sortAvail xs)

/-- `available_slots[avail_date].append(...)` over a whole window: extend the
bucket of key `d` in the insertion-ordered dict `m`, creating it at the end
when absent. -/
def addSlots (m : List (Nat × List Slot)) (d : Nat) (s : List Slot) :
    List (Nat × List Slot) :=
  match m with
  | [] => [(d, s)]
  | (d0, s0) :: rest =>
      if d0 == d then (d0, s0 ++ s) :: rest else (d0, s0) :: addSlots rest d s

/-- The slot resolver route `check_doctor_availability(doctor_id)`:
`none` models the "Doctor not found" redirect; otherwise the insertion-ordered
mapping from date to slot list, built from the doctor's availability rows in
the date window (sorted by date then start time) against the booked map. -/
def check_doctor_availability (doctor_id : Nat) (future_dates : List Nat)
    (db : DB) : Option (List (Nat × List Slot)) :=
  if db.users.contains doctor_id then
    let avail := sortAvail (db.availability.filter (fun w =>
        w.doctor_id == doctor_id && future_dates.contains w.date))
    let booked := booked_map doctor_id future_dates db
    some (avail.foldl (fun m w => addSlots m w.date (resolveWindow booked w)) [])
  else none

/-- Result of the booking route.  `PastError` is the "Cannot book an
appointment in the past" rejection, `SlotAlreadyTaken` the optimistic
pre-check rejection, `IntegrityError` the UNIQUE-constraint rejection of the
insert, `UnexpectedError` the post-commit failure of the doctor-name fetch
(the insert is already committed at that point). -/
inductive BookResult where
  | PastError
  | SlotAlreadyTaken
  | IntegrityError
  | UnexpectedError
  | Success (app_id : Nat)
deriving DecidableEq

/-- The booking route `book_appointment(doctor_id, date_str, time_str)`:
past check, optimistic `status = 'Booked'` pre-check, then the insert whose
`UNIQUE(doctor_id, date, time)` constraint (status-blind) rejects whenever any
row with the same triple exists; on success a fresh Booked row is appended
and committed, after which the doctor-name fetch may still fail. -/
def book_appointment (patient_id doctor_id date time nowD nowT : Nat)
    (db : DB) : BookResult × DB :=
  if dtBefore date time nowD nowT then
    (BookResult.PastError, db)
  else if db.appointments.any (fun a =>
      a.doctor_id == doctor_id && a.date == date && a.time == time
        && a.status == Status.Booked) then
    (BookResult.SlotAlreadyTaken, db)
  else if db.appointments.any (fun a =>
      a.doctor_id == doctor_id && a.date == date && a.time == time) then
    (BookResult.IntegrityError, db)
  else
    let db2 : DB :=
      { db with
        appointments := db.appointments ++
          [{ app_id := db.next_app_id, patient_id := patient_id,
             doctor_id := doctor_id, date := date, time := time,
             status := Status.Booked }]
        next_app_id := db.next_app_id + 1 }
    if db2.users.contains doctor_id then
      (BookResult.Success db.next_app_id, db2)
    else
      (BookResult.UnexpectedError, db2)

/-- The insert step of the booking route alone (step 2 without the optimistic
pre-check): models a committer whose pre-check raced and saw a stale free
slot, so that only the UNIQUE constraint stands between it and a double
booking. -/
def book_insert_only (patient_id doctor_id date time : Nat) (db : DB) :
    BookResult × DB :=
  if db.appointments.any (fun a =>
      a.doctor_id == doctor_id && a.date == date && a.time == time) then
    (BookResult.IntegrityError, db)
  else
    (BookResult.Success db.next_app_id,
      { db with
        appointments := db.appointments ++
          [{ app_id := db.next_app_id, patient_id := patient_id,
             doctor_id := doctor_id, date := date, time := time,
             status := Status.Booked }]
        next_app_id := db.next_app_id + 1 })

/-- Result of the treatment-recording route. -/
inductive TreatResult where
  | NotFoundOrUnauthorized
  | TreatmentExists
  | Success
deriving DecidableEq

/-- The route `update_treatment(app_id)` (POST path): the verification query
joins `appointment` with `user` on the patient and filters on `app_id` and
the acting doctor (no status filter); then the treatment insert, rejected by
the UNIQUE constraint on `treatment.app_id` when a treatment already exists,
and in the same commit the status update to Completed. -/
def update_treatment (doctor_id app_id : Nat)
    (diagnosis prescription notes : String) (db : DB) : TreatResult × DB :=
  if db.appointments.any (fun a =>
      a.app_id == app_id && a.doctor_id == doctor_id
        && db.users.contains a.patient_id) then
    if db.treatments.any (fun t => t.app_id == app_id) then
      (TreatResult.TreatmentExists, db)
    else
      (TreatResult.Success,
        { db with
          treatments := db.treatments ++
            [{ app_id := app_id, diagnosis := diagnosis,
               prescription := prescription, notes := notes }]
          appointments := db.appointments.map (fun a =>
            if a.app_id == app_id then { a with status := Status.Completed }
            else a) })
  else
    (TreatResult.NotFoundOrUnauthorized, db)

/-- Result of the two cancellation routes. -/
inductive CancelResult where
  | NotFoundOrUnauthorized
  | Success
deriving DecidableEq

/-- The route `doctor_cancel_appointment(app_id)`: `UPDATE appointment SET
status = 'Cancelled' WHERE app_id = ? AND doctor_id = ? AND status =
'Booked'`; `rowcount = 0` is the not-found-or-unauthorized warning and leaves
the store untouched. -/
def doctor_cancel_appointment (doctor_id app_id : Nat) (db : DB) :
    CancelResult × DB :=
  if db.appointments.any (fun a =>
      a.app_id == app_id && a.doctor_id == doctor_id
        && a.status == Status.Booked) then
    (CancelResult.Success,
      { db with
        appointments := db.appointments.map (fun a =>
          if a.app_id == app_id && a.doctor_id == doctor_id
              && a.status == Status.Booked then
            { a with status := Status.Cancelled }
          else a) })
  else
    (CancelResult.NotFoundOrUnauthorized, db)

/-- The route `patient_cancel_appointment(app_id)`: same UPDATE scoped to the
acting patient instead of the doctor. -/
def patient_cancel_appointment (patient_id app_id : Nat) (db : DB) :
    CancelResult × DB :=
  if db.appointments.any (fun a =>
      a.app_id == app_id && a.patient_id == patient_id
        && a.status == Status.Booked) then
    (CancelResult.Success,
      { db with
        appointments := db.appointments.map (fun a =>
          if a.app_id == app_id && a.patient_id == patient_id
              && a.status == Status.Booked then
            { a with status := Status.Cancelled }
          else a) })
  else
    (CancelResult.NotFoundOrUnauthorized, db)

/-- The route `set_doctor_availability` (POST path): delete the doctor's
availability rows dated in the window, then insert the chosen
`(date, start_time, end_time)` rows. -/
def set_doctor_availability (doctor_id : Nat) (future_dates : List Nat)
    (chosen : List (Nat × Nat × Nat)) (db : DB) : DB :=
  { db with
    availability :=
      (db.availability.filter (fun w =>
        !(w.doctor_id == doctor_id && future_dates.contains w.date)))
      ++ chosen.map (fun c =>
        { doctor_id := doctor_id, date := c.1, start_time := c.2.1,
          end_time := c.2.2 }) }

/-- User creation (`register` / `add_doctor`): a fresh `user_id` is appended
to the `user` table; the embedded operations only consult `user_id`s, so the
other columns are projected away. -/
def register_user (db : DB) : DB :=
  { db with
    users := db.users ++ [db.next_user_id],
    next_user_id := db.next_user_id + 1 }

/-- The store-mutating operations of the application, with their inputs. -/
inductive Op where
  | book (patient_id doctor_id date time nowD nowT : Nat)
  | treat (doctor_id app_id : Nat) (diagnosis prescription notes : String)
  | dcancel (doctor_id app_id : Nat)
  | pcancel (patient_id app_id : Nat)
  | setAvail (doctor_id : Nat) (future_dates : List Nat)
      (chosen : List (Nat × Nat × Nat))
  | addUser

/-- The effect of one operation on the database. -/
def applyOp (op : Op) (db : DB) : DB :=
  match op with
  | Op.book p d x t nd nt => (book_appointment p d x t nd nt db).2
  | Op.treat d a dg pr nt => (update_treatment d a dg pr nt db).2
  | Op.dcancel d a => (doctor_cancel_appointment d a db).2
  | Op.pcancel p a => (patient_cancel_appointment p a db).2
  | Op.setAvail d fd ch => set_doctor_availability d fd ch db
  | Op.addUser => register_user db

/-- Database states reachable from the seeded database through the
application's operations. -/
inductive Reachable : DB → Prop where
  | init : Reachable initDB
  | step {db : DB} (op : Op) : Reachable db → Reachable (applyOp op db)

/-- Two appointment rows agree on the `(doctor_id, date, time)` triple. -/
def sameTriple (a b : Appointment) : Prop :=
  a.doctor_id = b.doctor_id ∧ a.date = b.date ∧ a.time = b.time

instance (a b : Appointment) : Decidable (sameTriple a b) := by
  unfold sameTriple
  infer_instance

/-- The `UNIQUE(doctor_id, date, time)` constraint: no two rows of the
appointment table share the triple. -/
def UniqueConstraint (db : DB) : Prop :=
  db.appointments.Pairwise (fun a b => ¬ sameTriple a b)

/-- At most one row with `status = 'Booked'` per `(doctor_id, date, time)`
triple: any two Booked occurrences at the same triple are the same row. -/
def AtMostOneBooked (db : DB) : Prop :=
  ∀ a ∈ db.appointments, ∀ b ∈ db.appointments,
    a.status = Status.Booked → b.status = Status.Booked →
    sameTriple a b → a = b

/-- No appointment row exists at the given `(doctor_id, date, time)` triple. -/
def TripleFree (doctor_id date time : Nat) (db : DB) : Prop :=
  ∀ a ∈ db.appointments,
    ¬(a.doctor_id = doctor_id ∧ a.date = date ∧ a.time = time)

instance (db : DB) : Decidable (UniqueConstraint db) := by
  unfold UniqueConstraint
  infer_instance

instance (db : DB) : Decidable (AtMostOneBooked db) := by
  unfold AtMostOneBooked
  infer_instance

instance (d x t : Nat) (db : DB) : Decidable (TripleFree d x t db) := by
  unfold TripleFree
  infer_instance

/-- The status transitions the operations can actually perform on an
existing row: stay put, leave Booked for Completed or Cancelled, or leave
Cancelled for Completed (treatment recording does not filter on status). -/
def statusTransOK (s s2 : Status) : Prop :=
  s2 = s
    ∨ (s = Status.Booked ∧ (s2 = Status.Completed ∨ s2 = Status.Cancelled))
    ∨ (s = Status.Cancelled ∧ s2 = Status.Completed)

/-- Slot `x` appears under date key `d` in the insertion-ordered mapping. -/
def SlotIn (m : List (Nat × List Slot)) (d : Nat) (x : Slot) : Prop :=
  ∃ sl, (d, sl) ∈ m ∧ x ∈ sl

/-- The seeded database after registering one patient (`user_id = 2`). -/
def dbReg : DB := register_user initDB

/-- `dbReg` after patient 2 books doctor 1 on date 5 at 08:00 (minute 480). -/
def dbBooked : DB := (book_appointment 2 1 5 480 0 0 dbReg).2

/-- `dbBooked` after doctor 1 cancels appointment 1. -/
def dbCancel : DB := (doctor_cancel_appointment 1 1 dbBooked).2

/-- `dbBooked` with one declared availability window 08:00–10:00 on date 5. -/
def dbWin : DB := { dbBooked with availability := [⟨1, 5, 480, 600⟩] }

/-- A database with one availability window of 25 minutes, 08:00–08:25. -/
def dbShort : DB :=
  { users := [1], appointments := [], treatments := [],
    availability := [⟨1, 0, 480, 505⟩], next_app_id := 1, next_user_id := 2 }

/-- A database with one availability window 08:00–12:00 and no appointments. -/
def dbMorning : DB :=
  { users := [1], appointments := [], treatments := [],
    availability := [⟨1, 0, 480, 720⟩], next_app_id := 1, next_user_id := 2 }

/-! ## Helper lemmas -/

/-- The database after a booking request is either untouched (any failure
branch) or has exactly the fresh Booked row appended, and in the latter case
the status-blind uniqueness test of the insert had come back empty. -/
theorem book_appointment_snd (p d x t nd nt : Nat) (db : DB) :
    (book_appointment p d x t nd nt db).2 = db ∨
    ((book_appointment p d x t nd nt db).2 =
      { db with
        appointments := db.appointments ++
          [{ app_id := db.next_app_id, patient_id := p, doctor_id := d,
             date := x, time := t, status := Status.Booked }],
        next_app_id := db.next_app_id + 1 } ∧
      db.appointments.any (fun a =>
        a.doctor_id == d && a.date == x && a.time == t) = false) := by
  unfold book_appointment
  split
  · exact Or.inl rfl
  split
  · exact Or.inl rfl
  split
  · exact Or.inl rfl
  next hins =>
    refine Or.inr ⟨?_, by simpa using hins⟩
    dsimp only
    split <;> rfl

/-- The database after a treatment-recording request is either untouched or
has the treatment row appended and the target appointment mapped to
Completed. -/
theorem update_treatment_snd (d a : Nat) (dg pr nt : String) (db : DB) :
    (update_treatment d a dg pr nt db).2 = db ∨
    (update_treatment d a dg pr nt db).2 =
      { db with
        treatments := db.treatments ++
          [{ app_id := a, diagnosis := dg, prescription := pr, notes := nt }],
        appointments := db.appointments.map (fun r =>
          if r.app_id == a then { r with status := Status.Completed } else r) } := by
  unfold update_treatment
  split
  · split
    · exact Or.inl rfl
    · exact Or.inr rfl
  · exact Or.inl rfl

/-- The database after a doctor-side cancellation is either untouched or has
the matching Booked rows mapped to Cancelled. -/
theorem doctor_cancel_snd (d a : Nat) (db : DB) :
    (doctor_cancel_appointment d a db).2 = db ∨
    (doctor_cancel_appointment d a db).2 =
      { db with
        appointments := db.appointments.map (fun r =>
          if r.app_id == a && r.doctor_id == d && r.status == Status.Booked then
            { r with status := Status.Cancelled }
          else r) } := by
  unfold doctor_cancel_appointment
  split
  · exact Or.inr rfl
  · exact Or.inl rfl

/-- The database after a patient-side cancellation is either untouched or has
the matching Booked rows mapped to Cancelled. -/
theorem patient_cancel_snd (p a : Nat) (db : DB) :
    (patient_cancel_appointment p a db).2 = db ∨
    (patient_cancel_appointment p a db).2 =
      { db with
        appointments := db.appointments.map (fun r =>
          if r.app_id == a && r.patient_id == p && r.status == Status.Booked then
            { r with status := Status.Cancelled }
          else r) } := by
  unfold patient_cancel_appointment
  split
  · exact Or.inr rfl
  · exact Or.inl rfl

/-- Status-only row updates preserve the uniqueness constraint. -/
theorem uniqueConstraint_map (db : DB) (f : Appointment → Appointment)
    (hf : ∀ r, (f r).doctor_id = r.doctor_id ∧ (f r).date = r.date ∧
      (f r).time = r.time)
    (h : UniqueConstraint db) :
    List.Pairwise (fun a b => ¬ sameTriple a b) (db.appointments.map f) := by
  rw [List.pairwise_map]
  refine h.imp ?_
  intro a b hab hs
  apply hab
  obtain ⟨h1, h2, h3⟩ := hs
  rw [(hf a).1, (hf b).1] at h1
  rw [(hf a).2.1, (hf b).2.1] at h2
  rw [(hf a).2.2, (hf b).2.2] at h3
  exact ⟨h1, h2, h3⟩

/-- Every operation preserves the `UNIQUE(doctor_id, date, time)` constraint:
the only insert into the appointment table is guarded by the status-blind
row-existence test, and every update leaves the triple columns unchanged. -/
theorem uniqueConstraint_step (op : Op) (db : DB) (h : UniqueConstraint db) :
    UniqueConstraint (applyOp op db) := by
  cases op with
  | book p d x t nd nt =>
      show UniqueConstraint (book_appointment p d x t nd nt db).2
      rcases book_appointment_snd p d x t nd nt db with heq | ⟨heq, hins⟩
      · rw [heq]; exact h
      · rw [heq]
        unfold UniqueConstraint at h ⊢
        rw [List.pairwise_append]
        refine ⟨h, List.pairwise_singleton _ _, ?_⟩
        intro a ha b hb hs
        rw [List.mem_singleton] at hb
        rw [List.any_eq_false] at hins
        apply hins a ha
        obtain ⟨h1, h2, h3⟩ := hs
        subst hb
        simp only [Bool.and_eq_true, beq_iff_eq]
        exact ⟨⟨h1, h2⟩, h3⟩
  | treat d a dg pr nt =>
      show UniqueConstraint (update_treatment d a dg pr nt db).2
      rcases update_treatment_snd d a dg pr nt db with heq | heq
      · rw [heq]; exact h
      · rw [heq]
        refine uniqueConstraint_map db _ ?_ h
        intro r
        split <;> exact ⟨rfl, rfl, rfl⟩
  | dcancel d a =>
      show UniqueConstraint (doctor_cancel_appointment d a db).2
      rcases doctor_cancel_snd d a db with heq | heq
      · rw [heq]; exact h
      · rw [heq]
        refine uniqueConstraint_map db _ ?_ h
        intro r
        split <;> exact ⟨rfl, rfl, rfl⟩
  | pcancel p a =>
      show UniqueConstraint (patient_cancel_appointment p a db).2
      rcases patient_cancel_snd p a db with heq | heq
      · rw [heq]; exact h
      · rw [heq]
        refine uniqueConstraint_map db _ ?_ h
        intro r
        split <;> exact ⟨rfl, rfl, rfl⟩
  | setAvail d fd ch => exact h
  | addUser => exact h

/-- Every reachable database satisfies the uniqueness constraint. -/
theorem reachable_uniqueConstraint (db : DB) (h : Reachable db) :
    UniqueConstraint db := by
  induction h with
  | init => exact List.Pairwise.nil
  | step op _ ih => exact uniqueConstraint_step op _ ih

/-- `sameTriple` is symmetric. -/
theorem sameTriple_symm : Symmetric fun a b : Appointment => ¬ sameTriple a b := by
  intro a b hab hs
  exact hab ⟨hs.1.symm, hs.2.1.symm, hs.2.2.symm⟩

/-- The uniqueness constraint bounds Booked rows: two Booked occurrences at
one triple are one and the same row. -/
theorem atMostOneBooked_of_unique (db : DB) (h : UniqueConstraint db) :
    AtMostOneBooked db := by
  intro a ha b hb _ _ hs
  by_contra hne
  exact (List.Pairwise.forall sameTriple_symm h ha hb hne) hs

/-- Booking a free future slot succeeds for an existing doctor: the fresh
Booked row is appended and committed. -/
theorem book_success (p d x t nd nt : Nat) (db : DB)
    (hnp : dtBefore x t nd nt = false)
    (hfree : TripleFree d x t db)
    (hdoc : db.users.contains d = true) :
    book_appointment p d x t nd nt db =
      (BookResult.Success db.next_app_id,
        { db with
          appointments := db.appointments ++
            [{ app_id := db.next_app_id, patient_id := p, doctor_id := d,
               date := x, time := t, status := Status.Booked }],
          next_app_id := db.next_app_id + 1 }) := by
  have h2 : db.appointments.any (fun a =>
      a.doctor_id == d && a.date == x && a.time == t) = false := by
    rw [List.any_eq_false]
    intro a ha
    simpa using hfree a ha
  have h1 : db.appointments.any (fun a =>
      a.doctor_id == d && a.date == x && a.time == t
        && a.status == Status.Booked) = false := by
    rw [List.any_eq_false]
    intro a ha
    simp only [Bool.and_eq_true, beq_iff_eq]
    rintro ⟨⟨⟨hd, hx⟩, ht⟩, _⟩
    exact hfree a ha ⟨hd, hx, ht⟩
  unfold book_appointment
  rw [hnp, h1, h2]
  simp [hdoc]
  simpa using hdoc

/-- Booking a slot at which a Booked row already stands fails through the
optimistic pre-check with `SlotAlreadyTaken`, leaving the store untouched. -/
theorem book_taken (p d x t nd nt : Nat) (db : DB)
    (hnp : dtBefore x t nd nt = false)
    (hb : ∃ a ∈ db.appointments,
      a.doctor_id = d ∧ a.date = x ∧ a.time = t ∧ a.status = Status.Booked) :
    book_appointment p d x t nd nt db = (BookResult.SlotAlreadyTaken, db) := by
  have h1 : db.appointments.any (fun a =>
      a.doctor_id == d && a.date == x && a.time == t
        && a.status == Status.Booked) = true := by
    rw [List.any_eq_true]
    obtain ⟨a, ha, h⟩ := hb
    exact ⟨a, ha, by simp [h.1, h.2.1, h.2.2.1, h.2.2.2]⟩
  unfold book_appointment
  rw [hnp, h1]
  simp

/-- Booking a slot at which any row (of whatever status) stands, while no
Booked row does, slips past the pre-check and is rejected by the UNIQUE
constraint at the insert, leaving the store untouched. -/
theorem book_integrity (p d x t nd nt : Nat) (db : DB)
    (hnp : dtBefore x t nd nt = false)
    (hnb : db.appointments.any (fun a =>
      a.doctor_id == d && a.date == x && a.time == t
        && a.status == Status.Booked) = false)
    (hrow : ∃ a ∈ db.appointments, a.doctor_id = d ∧ a.date = x ∧ a.time = t) :
    book_appointment p d x t nd nt db = (BookResult.IntegrityError, db) := by
  have h2 : db.appointments.any (fun a =>
      a.doctor_id == d && a.date == x && a.time == t) = true := by
    rw [List.any_eq_true]
    obtain ⟨a, ha, h⟩ := hrow
    exact ⟨a, ha, by simp [h.1, h.2.1, h.2.2]⟩
  unfold book_appointment
  rw [hnp, hnb, h2]
  simp

/-- The bare insert (no pre-check) against a standing row at the triple is
rejected by the UNIQUE constraint. -/
theorem book_insert_only_fails (p d x t : Nat) (db : DB)
    (hrow : ∃ a ∈ db.appointments, a.doctor_id = d ∧ a.date = x ∧ a.time = t) :
    book_insert_only p d x t db = (BookResult.IntegrityError, db) := by
  have h2 : db.appointments.any (fun a =>
      a.doctor_id == d && a.date == x && a.time == t) = true := by
    rw [List.any_eq_true]
    obtain ⟨a, ha, h⟩ := hrow
    exact ⟨a, ha, by simp [h.1, h.2.1, h.2.2]⟩
  unfold book_insert_only
  rw [h2]
  simp

/-! ## Claims -/

/-- C1: In every reachable database state there is at most one Booked
appointment row per `(doctor_id, date, time)` triple, and when two booking
attempts target the same free triple the first succeeds, the second fails
with the `SlotAlreadyTaken`-class error and changes nothing — and even a
committer that skips the optimistic pre-check (`book_insert_only`, i.e. a
racer whose pre-check saw a stale free slot) is stopped by the uniqueness
constraint alone. -/
theorem C1_booking_exclusive (db : DB) (p1 p2 d x t nd nt : Nat)
    (hdb : Reachable db) (hfree : TripleFree d x t db)
    (hnp : dtBefore x t nd nt = false)
    (hdoc : db.users.contains d = true) :
    AtMostOneBooked db ∧
    (book_appointment p1 d x t nd nt db).1 = BookResult.Success db.next_app_id ∧
    book_appointment p2 d x t nd nt (book_appointment p1 d x t nd nt db).2 =
      (BookResult.SlotAlreadyTaken, (book_appointment p1 d x t nd nt db).2) ∧
    book_insert_only p2 d x t (book_appointment p1 d x t nd nt db).2 =
      (BookResult.IntegrityError, (book_appointment p1 d x t nd nt db).2) := by
  have hb := book_success p1 d x t nd nt db hnp hfree hdoc
  have hmem : ∃ a ∈ (book_appointment p1 d x t nd nt db).2.appointments,
      a.doctor_id = d ∧ a.date = x ∧ a.time = t ∧ a.status = Status.Booked := by
    rw [hb]
    exact ⟨_, List.mem_append_right _ (List.mem_singleton_self _),
      rfl, rfl, rfl, rfl⟩
  refine ⟨atMostOneBooked_of_unique db (reachable_uniqueConstraint db hdb),
    ?_, ?_, ?_⟩
  · rw [hb]
  · exact book_taken p2 d x t nd nt _ hnp hmem
  · exact book_insert_only_fails p2 d x t _
      (hmem.imp fun a h => ⟨h.1, h.2.1, h.2.2.1, h.2.2.2.1⟩)

/-- C1 witness: from the seeded database, a concrete run of two competing
bookings of the free slot (doctor 1, date 2, 08:00). -/
theorem C1_booking_exclusive_witness :
    AtMostOneBooked initDB ∧
    (book_appointment 3 1 2 480 1 0 initDB).1 = BookResult.Success initDB.next_app_id ∧
    book_appointment 4 1 2 480 1 0 (book_appointment 3 1 2 480 1 0 initDB).2 =
      (BookResult.SlotAlreadyTaken, (book_appointment 3 1 2 480 1 0 initDB).2) ∧
    book_insert_only 4 1 2 480 (book_appointment 3 1 2 480 1 0 initDB).2 =
      (BookResult.IntegrityError, (book_appointment 3 1 2 480 1 0 initDB).2) :=
  C1_booking_exclusive initDB 3 4 1 2 480 1 0 Reachable.init
    (by decide) (by decide) (by decide)

/-- Every emitted slot's flag is the occupancy lookup at its own start
time and its window's date. -/
theorem walkSlotsAux_spec (booked : List (Nat × Nat)) (d limit : Nat) :
    ∀ fuel cur s, s ∈ walkSlotsAux booked d limit fuel cur →
      s.is_booked = booked.any (fun q => q.1 == d && q.2 == s.time) := by
  intro fuel
  induction fuel with
  | zero =>
      intro cur s h
      cases h
  | succ f ih =>
      intro cur s h
      simp only [walkSlotsAux] at h
      split at h
      · rcases List.mem_cons.1 h with h | h
        · rw [h]
          rfl
        · exact ih (cur + 30) s h
      · cases h

/-- `walkSlots` version of `walkSlotsAux_spec`. -/
theorem walkSlots_spec (booked : List (Nat × Nat)) (d cur limit : Nat) :
    ∀ s ∈ walkSlots booked d cur limit,
      s.is_booked = booked.any (fun q => q.1 == d && q.2 == s.time) :=
  fun s h => walkSlotsAux_spec booked d limit (limit - cur) cur s h

/-- Slots present after a bucket extension came from the old mapping or
from the extending list under its key. -/
theorem slotIn_addSlots (m : List (Nat × List Slot)) (d2 : Nat)
    (s2 : List Slot) (d : Nat) (x : Slot) (h : SlotIn (addSlots m d2 s2) d x) :
    SlotIn m d x ∨ (d = d2 ∧ x ∈ s2) := by
  induction m with
  | nil =>
      obtain ⟨sl, hmem, hx⟩ := h
      simp only [addSlots, List.mem_singleton, Prod.mk.injEq] at hmem
      obtain ⟨h1, h2⟩ := hmem
      exact Or.inr ⟨h1, h2 ▸ hx⟩
  | cons p rest ih =>
      obtain ⟨d0, s0⟩ := p
      obtain ⟨sl, hmem, hx⟩ := h
      simp only [addSlots] at hmem
      by_cases hc : (d0 == d2) = true
      · rw [if_pos hc] at hmem
        rcases List.mem_cons.1 hmem with heq | hmm
        · simp only [Prod.mk.injEq] at heq
          obtain ⟨h1, h2⟩ := heq
          rw [h2] at hx
          rcases List.mem_append.1 hx with hx0 | hx2
          · exact Or.inl ⟨s0, by rw [h1]; exact List.mem_cons_self _ _, hx0⟩
          · exact Or.inr ⟨h1.trans (beq_iff_eq.1 hc), hx2⟩
        · exact Or.inl ⟨sl, List.mem_cons_of_mem _ hmm, hx⟩
      · rw [if_neg hc] at hmem
        rcases List.mem_cons.1 hmem with heq | hmm
        · exact Or.inl ⟨sl, List.mem_cons.2 (Or.inl heq), hx⟩
        · rcases ih ⟨sl, hmm, hx⟩ with hold | hnew
          · obtain ⟨sl2, hmem2, hx2⟩ := hold
            exact Or.inl ⟨sl2, List.mem_cons_of_mem _ hmem2, hx2⟩
          · exact Or.inr hnew

/-- Every slot in the folded mapping came from the seed mapping or from one
of the walked windows, under that window's date. -/
theorem slotIn_foldl (booked : List (Nat × Nat)) :
    ∀ (ws : List Availability) (m0 : List (Nat × List Slot)) (d : Nat)
      (x : Slot),
      SlotIn (ws.foldl
        (fun m w => addSlots m w.date (resolveWindow booked w)) m0) d x →
      SlotIn m0 d x ∨ ∃ w ∈ ws, w.date = d ∧ x ∈ resolveWindow booked w := by
  intro ws
  induction ws with
  | nil =>
      intro m0 d x h
      exact Or.inl h
  | cons w rest ih =>
      intro m0 d x h
      simp only [List.foldl_cons] at h
      rcases ih _ d x h with h2 | h2
      · rcases slotIn_addSlots m0 w.date (resolveWindow booked w) d x h2
          with h3 | h3
        · exact Or.inl h3
        · exact Or.inr ⟨w, List.mem_cons_self _ _, h3.1.symm, h3.2⟩
      · obtain ⟨w2, hw2, hh⟩ := h2
        exact Or.inr ⟨w2, List.mem_cons_of_mem _ hw2, hh⟩

/-- Membership in the booked map unpacked to the underlying Booked rows. -/
theorem mem_booked_map (dID : Nat) (fd : List Nat) (db : DB) (q : Nat × Nat) :
    q ∈ booked_map dID fd db ↔ ∃ a ∈ db.appointments,
      a.doctor_id = dID ∧ fd.contains a.date = true ∧
      a.status = Status.Booked ∧ q = (a.date, a.time) := by
  unfold booked_map
  rw [List.mem_map]
  constructor
  · rintro ⟨a, hmem, rfl⟩
    rw [List.mem_filter] at hmem
    obtain ⟨ha, hcond⟩ := hmem
    simp only [Bool.and_eq_true, beq_iff_eq] at hcond
    exact ⟨a, ha, hcond.1.1, hcond.1.2, hcond.2, rfl⟩
  · rintro ⟨a, ha, h1, h2, h3, rfl⟩
    refine ⟨a, ?_, rfl⟩
    rw [List.mem_filter]
    refine ⟨ha, ?_⟩
    simp only [Bool.and_eq_true, beq_iff_eq]
    exact ⟨⟨h1, h2⟩, h3⟩

/-- C2 counterexample: Cancelled is not terminal. In the concrete run,
appointment 1 of `dbCancel` is Cancelled, yet the doctor's
treatment-recording request succeeds and moves it to Completed — the
verification query and the status update of `update_treatment` carry no
status filter, so Cancelled → Completed is reachable, contradicting the
claim that Completed and Cancelled are not reachable from each other. -/
theorem C2_terminal_status_counterexample :
    (∃ a ∈ dbCancel.appointments, a.app_id = 1 ∧ a.status = Status.Cancelled) ∧
    (update_treatment 1 1 "flu" "rest" "" dbCancel).1 = TreatResult.Success ∧
    (∃ a ∈ (update_treatment 1 1 "flu" "rest" "" dbCancel).2.appointments,
      a.app_id = 1 ∧ a.status = Status.Completed) := by
  decide

/-- C2 amended: each operation preserves every appointment row up to a
status change drawn from: no change, Booked → Completed, Booked → Cancelled,
or Cancelled → Completed (the latter through treatment recording, whose
queries do not filter on status); in particular Completed is terminal, but
Cancelled is not. -/
theorem C2_amended_status_transitions (db : DB) (op : Op) (a : Appointment)
    (ha : a ∈ db.appointments) :
    ∃ a2 ∈ (applyOp op db).appointments,
      a2.app_id = a.app_id ∧ a2.patient_id = a.patient_id ∧
      a2.doctor_id = a.doctor_id ∧ a2.date = a.date ∧ a2.time = a.time ∧
      statusTransOK a.status a2.status ∧
      (a.status = Status.Completed → a2.status = Status.Completed) := by
  cases op with
  | book p d x t nd nt =>
      simp only [applyOp]
      rcases book_appointment_snd p d x t nd nt db with heq | ⟨heq, _⟩ <;>
        rw [heq]
      · exact ⟨a, ha, rfl, rfl, rfl, rfl, rfl, Or.inl rfl, fun h => h⟩
      · exact ⟨a, List.mem_append_left _ ha, rfl, rfl, rfl, rfl, rfl,
          Or.inl rfl, fun h => h⟩
  | treat d ap dg pr nt =>
      simp only [applyOp]
      rcases update_treatment_snd d ap dg pr nt db with heq | heq <;> rw [heq]
      · exact ⟨a, ha, rfl, rfl, rfl, rfl, rfl, Or.inl rfl, fun h => h⟩
      · refine ⟨_, List.mem_map_of_mem _ ha, ?_⟩
        dsimp only
        by_cases hc : a.app_id = ap
        · rw [if_pos (by simp [hc])]
          refine ⟨rfl, rfl, rfl, rfl, rfl, ?_, fun _ => rfl⟩
          rcases hs : a.status
          · exact Or.inr (Or.inl ⟨rfl, Or.inl rfl⟩)
          · exact Or.inl rfl
          · exact Or.inr (Or.inr ⟨rfl, rfl⟩)
        · rw [if_neg (by simp [hc])]
          exact ⟨rfl, rfl, rfl, rfl, rfl, Or.inl rfl, fun h => h⟩
  | dcancel d ap =>
      simp only [applyOp]
      rcases doctor_cancel_snd d ap db with heq | heq <;> rw [heq]
      · exact ⟨a, ha, rfl, rfl, rfl, rfl, rfl, Or.inl rfl, fun h => h⟩
      · refine ⟨_, List.mem_map_of_mem _ ha, ?_⟩
        dsimp only
        by_cases hc : (a.app_id == ap && a.doctor_id == d
            && a.status == Status.Booked) = true
        · rw [if_pos hc]
          simp only [Bool.and_eq_true, beq_iff_eq] at hc
          refine ⟨rfl, rfl, rfl, rfl, rfl, ?_, ?_⟩
          · exact Or.inr (Or.inl ⟨hc.2, Or.inr rfl⟩)
          · intro h
            rw [h] at hc
            exact absurd hc.2 (by decide)
        · rw [if_neg hc]
          exact ⟨rfl, rfl, rfl, rfl, rfl, Or.inl rfl, fun h => h⟩
  | pcancel p ap =>
      simp only [applyOp]
      rcases patient_cancel_snd p ap db with heq | heq <;> rw [heq]
      · exact ⟨a, ha, rfl, rfl, rfl, rfl, rfl, Or.inl rfl, fun h => h⟩
      · refine ⟨_, List.mem_map_of_mem _ ha, ?_⟩
        dsimp only
        by_cases hc : (a.app_id == ap && a.patient_id == p
            && a.status == Status.Booked) = true
        · rw [if_pos hc]
          simp only [Bool.and_eq_true, beq_iff_eq] at hc
          refine ⟨rfl, rfl, rfl, rfl, rfl, ?_, ?_⟩
          · exact Or.inr (Or.inl ⟨hc.2, Or.inr rfl⟩)
          · intro h
            rw [h] at hc
            exact absurd hc.2 (by decide)
        · rw [if_neg hc]
          exact ⟨rfl, rfl, rfl, rfl, rfl, Or.inl rfl, fun h => h⟩
  | setAvail d fd ch =>
      exact ⟨a, ha, rfl, rfl, rfl, rfl, rfl, Or.inl rfl, fun h => h⟩
  | addUser =>
      exact ⟨a, ha, rfl, rfl, rfl, rfl, rfl, Or.inl rfl, fun h => h⟩

/-- C2 amended witness: the treatment-recording operation applied to the
concrete Cancelled appointment of `dbCancel` yields a row with an allowed
transition. -/
theorem C2_amended_status_transitions_witness :
    ∃ a2 ∈ (applyOp (Op.treat 1 1 "flu" "rest" "") dbCancel).appointments,
      a2.app_id = 1 ∧ a2.patient_id = 2 ∧ a2.doctor_id = 1 ∧ a2.date = 5 ∧
      a2.time = 480 ∧ statusTransOK Status.Cancelled a2.status ∧
      (Status.Cancelled = Status.Completed → a2.status = Status.Completed) :=
  C2_amended_status_transitions dbCancel (Op.treat 1 1 "flu" "rest" "")
    ⟨1, 2, 1, 5, 480, Status.Cancelled⟩ (by decide)

/-- C4: a Cancelled row at a triple makes every later booking attempt at the
triple fail: the Booked-scoped pre-check passes but the status-blind UNIQUE
constraint rejects the insert, and no row is added. -/
theorem C4_cancelled_blocks_rebooking (p d x t nd nt : Nat) (db : DB)
    (huniq : UniqueConstraint db)
    (hc : ∃ a ∈ db.appointments,
      a.doctor_id = d ∧ a.date = x ∧ a.time = t ∧ a.status = Status.Cancelled)
    (hnp : dtBefore x t nd nt = false) :
    book_appointment p d x t nd nt db = (BookResult.IntegrityError, db) := by
  obtain ⟨c, hcmem, hcd, hcx, hct, hcs⟩ := hc
  have hnb : db.appointments.any (fun a =>
      a.doctor_id == d && a.date == x && a.time == t
        && a.status == Status.Booked) = false := by
    rw [List.any_eq_false]
    intro a ha
    simp only [Bool.and_eq_true, beq_iff_eq]
    rintro ⟨⟨⟨hd, hx⟩, ht⟩, hs⟩
    have hne : a ≠ c := by
      intro h
      rw [h, hcs] at hs
      exact Status.noConfusion hs
    exact (List.Pairwise.forall sameTriple_symm huniq ha hcmem hne)
      ⟨hd.trans hcd.symm, hx.trans hcx.symm, ht.trans hct.symm⟩
  exact book_integrity p d x t nd nt db hnp hnb
    ⟨c, hcmem, hcd, hcx, hct⟩

/-- C4 witness: after booking and cancelling appointment 1 at (doctor 1,
date 5, 08:00), a fresh booking attempt at the same triple by patient 4
hits the constraint and inserts nothing. -/
theorem C4_cancelled_blocks_rebooking_witness :
    book_appointment 4 1 5 480 0 0 dbCancel = (BookResult.IntegrityError, dbCancel) :=
  C4_cancelled_blocks_rebooking 4 1 5 480 0 0 dbCancel
    (by decide) (by decide) (by decide)

/-- C5: a booking request strictly in the past is rejected with the
invalid-input error before any store access; the store is returned
unchanged, whatever it holds. -/
theorem C5_past_booking_rejected (p d x t nd nt : Nat) (db : DB)
    (h : dtBefore x t nd nt = true) :
    book_appointment p d x t nd nt db = (BookResult.PastError, db) := by
  unfold book_appointment
  rw [h]
  simp

/-- C5 witness: booking date 0 at 08:00 when now is date 5 fails as in the
past and leaves the seeded database unchanged. -/
theorem C5_past_booking_rejected_witness :
    book_appointment 2 1 0 480 5 0 initDB = (BookResult.PastError, initDB) :=
  C5_past_booking_rejected 2 1 0 480 5 0 initDB (by decide)

/-- C9: booking never consults the doctor's declared availability. Whatever
the `doctor_availability` table holds — including nothing at all — and
whether or not the requested time sits on a 30-minute boundary, a future
request for a triple with no appointment row succeeds and inserts a Booked
row. -/
theorem C9_booking_ignores_availability (p d x t nd nt : Nat)
    (av : List Availability) (db : DB)
    (hfree : TripleFree d x t db)
    (hnp : dtBefore x t nd nt = false)
    (hdoc : db.users.contains d = true) :
    book_appointment p d x t nd nt { db with availability := av } =
      (BookResult.Success db.next_app_id,
        { db with
          availability := av,
          appointments := db.appointments ++
            [{ app_id := db.next_app_id, patient_id := p, doctor_id := d,
               date := x, time := t, status := Status.Booked }],
          next_app_id := db.next_app_id + 1 }) :=
  book_success p d x t nd nt { db with availability := av } hnp hfree hdoc

/-- C8: a cancellation request whose acting identity does not match the
appointment's owner, or whose target does not exist or is not Booked, yields
the not-found-or-unauthorized result and leaves the store — and hence every
field of every appointment row — unchanged, on the patient route and on the
doctor route alike. -/
theorem C8_cancel_unauthorized_noop (p d app : Nat) (db : DB)
    (hp : ∀ a ∈ db.appointments,
      ¬(a.app_id = app ∧ a.patient_id = p ∧ a.status = Status.Booked))
    (hd : ∀ a ∈ db.appointments,
      ¬(a.app_id = app ∧ a.doctor_id = d ∧ a.status = Status.Booked)) :
    patient_cancel_appointment p app db =
      (CancelResult.NotFoundOrUnauthorized, db) ∧
    doctor_cancel_appointment d app db =
      (CancelResult.NotFoundOrUnauthorized, db) := by
  constructor
  · have h1 : db.appointments.any (fun a =>
        a.app_id == app && a.patient_id == p
          && a.status == Status.Booked) = false := by
      rw [List.any_eq_false]
      intro a ha
      simp only [Bool.and_eq_true, beq_iff_eq]
      rintro ⟨⟨h1, h2⟩, h3⟩
      exact hp a ha ⟨h1, h2, h3⟩
    unfold patient_cancel_appointment
    rw [h1]
    simp
  · have h1 : db.appointments.any (fun a =>
        a.app_id == app && a.doctor_id == d
          && a.status == Status.Booked) = false := by
      rw [List.any_eq_false]
      intro a ha
      simp only [Bool.and_eq_true, beq_iff_eq]
      rintro ⟨⟨h1, h2⟩, h3⟩
      exact hd a ha ⟨h1, h2, h3⟩
    unfold doctor_cancel_appointment
    rw [h1]
    simp

/-- C8 witness: appointment 1 in `dbBooked` belongs to patient 2 and doctor 1;
acting identity 9 is rejected on both routes and the store is unchanged. -/
theorem C8_cancel_unauthorized_noop_witness :
    patient_cancel_appointment 9 1 dbBooked =
      (CancelResult.NotFoundOrUnauthorized, dbBooked) ∧
    doctor_cancel_appointment 9 1 dbBooked =
      (CancelResult.NotFoundOrUnauthorized, dbBooked) :=
  C8_cancel_unauthorized_noop 9 9 1 dbBooked (by decide) (by decide)

/-- C10: treatment recording is atomic with completion. When the acting
doctor's appointment is found: if no treatment row exists for the
appointment, exactly one treatment row is appended and the appointment's
status becomes Completed in the same commit (all other rows kept); if a
treatment row already exists, the request fails and the whole store is
unchanged. -/
theorem C10_treatment_atomic (d app : Nat) (dg pr nts : String) (db : DB)
    (hfound : ∃ a ∈ db.appointments,
      a.app_id = app ∧ a.doctor_id = d ∧ db.users.contains a.patient_id = true) :
    ((∀ t ∈ db.treatments, t.app_id ≠ app) →
      (update_treatment d app dg pr nts db).1 = TreatResult.Success ∧
      (update_treatment d app dg pr nts db).2.treatments =
        db.treatments ++
          [{ app_id := app, diagnosis := dg, prescription := pr, notes := nts }] ∧
      (∀ a ∈ (update_treatment d app dg pr nts db).2.appointments,
        a.app_id = app → a.status = Status.Completed) ∧
      (∀ a ∈ db.appointments, a.app_id ≠ app →
        a ∈ (update_treatment d app dg pr nts db).2.appointments)) ∧
    ((∃ t ∈ db.treatments, t.app_id = app) →
      update_treatment d app dg pr nts db = (TreatResult.TreatmentExists, db)) := by
  have h1 : db.appointments.any (fun a =>
      a.app_id == app && a.doctor_id == d
        && db.users.contains a.patient_id) = true := by
    rw [List.any_eq_true]
    obtain ⟨a, ha, h⟩ := hfound
    refine ⟨a, ha, ?_⟩
    simp only [Bool.and_eq_true, beq_iff_eq]
    exact ⟨⟨h.1, h.2.1⟩, h.2.2⟩
  constructor
  · intro hno
    have h2 : db.treatments.any (fun t => t.app_id == app) = false := by
      rw [List.any_eq_false]
      intro t ht
      simpa using hno t ht
    have heq : update_treatment d app dg pr nts db =
        (TreatResult.Success,
          { db with
            treatments := db.treatments ++
              [{ app_id := app, diagnosis := dg, prescription := pr,
                 notes := nts }],
            appointments := db.appointments.map (fun a =>
              if a.app_id == app then { a with status := Status.Completed }
              else a) }) := by
      unfold update_treatment
      rw [h1, h2]
      rfl
    rw [heq]
    refine ⟨rfl, rfl, ?_, ?_⟩
    · intro a ha hid
      rw [List.mem_map] at ha
      obtain ⟨b, _, hb⟩ := ha
      by_cases hba : b.app_id = app
      · rw [← hb]
        simp [hba]
      · rw [← hb] at hid
        simp only [beq_iff_eq, if_neg hba] at hid
        exact absurd hid hba
    · intro a ha hne
      rw [List.mem_map]
      exact ⟨a, ha, by simp [hne]⟩
  · intro hyes
    have h2 : db.treatments.any (fun t => t.app_id == app) = true := by
      rw [List.any_eq_true]
      obtain ⟨t, ht, h⟩ := hyes
      exact ⟨t, ht, by simp [h]⟩
    unfold update_treatment
    rw [h1, h2]
    simp

/-- C10 witness: doctor 1 records a treatment for appointment 1 of
`dbBooked` (no prior treatment): success, one treatment row, status
Completed; and on the resulting database a second recording attempt leaves
everything unchanged. -/
theorem C10_treatment_atomic_witness :
    ((∀ t ∈ dbBooked.treatments, t.app_id ≠ 1) →
      (update_treatment 1 1 "flu" "rest" "" dbBooked).1 = TreatResult.Success ∧
      (update_treatment 1 1 "flu" "rest" "" dbBooked).2.treatments =
        dbBooked.treatments ++
          [{ app_id := 1, diagnosis := "flu", prescription := "rest",
             notes := "" }] ∧
      (∀ a ∈ (update_treatment 1 1 "flu" "rest" "" dbBooked).2.appointments,
        a.app_id = 1 → a.status = Status.Completed) ∧
      (∀ a ∈ dbBooked.appointments, a.app_id ≠ 1 →
        a ∈ (update_treatment 1 1 "flu" "rest" "" dbBooked).2.appointments)) ∧
    ((∃ t ∈ dbBooked.treatments, t.app_id = 1) →
      update_treatment 1 1 "flu" "rest" "" dbBooked =
        (TreatResult.TreatmentExists, dbBooked)) :=
  C10_treatment_atomic 1 1 "flu" "rest" "" dbBooked (by decide)

/-- C9 witness: with an empty availability table, a request at 08:13
(minute 493, not slot-aligned, covered by no window) succeeds and inserts a
Booked row. -/
theorem C9_booking_ignores_availability_witness :
    book_appointment 2 1 5 493 0 0 { initDB with availability := [] } =
      (BookResult.Success initDB.next_app_id,
        { initDB with
          availability := [],
          appointments := initDB.appointments ++
            [{ app_id := initDB.next_app_id, patient_id := 2, doctor_id := 1,
               date := 5, time := 493, status := Status.Booked }],
          next_app_id := initDB.next_app_id + 1 }) :=
  C9_booking_ignores_availability 2 1 5 493 0 0 [] initDB
    (by decide) (by decide) (by decide)

/-- C3 counterexample: a 25-minute window (08:00–08:25) does NOT yield zero
slots — the walk's guard compares the slot START against end_time, so one
trailing slot 08:00–08:30 is emitted, both from the single window and
through the whole resolver. -/
theorem C3_short_window_counterexample :
    resolveWindow [] ⟨1, 0, 480, 505⟩ = [⟨480, 510, false⟩] ∧
    check_doctor_availability 1 [0] dbShort =
      some [(0, [⟨480, 510, false⟩])] := by
  decide

/-- C3 amended: an availability window strictly shorter than 30 minutes
(with start_time < end_time) emits exactly one slot, starting at start_time
and extending 30 minutes past it — beyond end_time; the walk stops once the
slot start (not its extent) reaches end_time. -/
theorem C3_amended_short_window (booked : List (Nat × Nat))
    (w : Availability) (h1 : w.start_time < w.end_time)
    (h2 : w.end_time < w.start_time + 30) :
    resolveWindow booked w = [mkSlot booked w.date w.start_time] := by
  unfold resolveWindow
  rw [walkSlots_eq, if_pos h1, walkSlots_eq, if_neg (by omega)]

/-- C3 amended witness: the 08:00–08:25 window emits exactly the 08:00
slot. -/
theorem C3_amended_short_window_witness :
    resolveWindow [] ⟨1, 0, 480, 505⟩ = [mkSlot [] 0 480] :=
  C3_amended_short_window [] ⟨1, 0, 480, 505⟩ (by decide) (by decide)

set_option maxRecDepth 8000 in
/-- C6: a lone 08:00–12:00 window with no Booked appointment resolves to
exactly the eight slots 08:00, 08:30, …, 11:30 in order (minutes 480–690),
all free, and no slot starting at 12:00 (minute 720). -/
theorem C6_morning_window_slots (d x : Nat) (fd : List Nat) (db : DB)
    (hdoc : db.users.contains d = true)
    (hav : db.availability = [⟨d, x, 480, 720⟩])
    (hnb : ∀ a ∈ db.appointments, a.status ≠ Status.Booked)
    (hx : fd.contains x = true) :
    check_doctor_availability d fd db =
      some [(x, [⟨480, 510, false⟩, ⟨510, 540, false⟩, ⟨540, 570, false⟩,
                 ⟨570, 600, false⟩, ⟨600, 630, false⟩, ⟨630, 660, false⟩,
                 ⟨660, 690, false⟩, ⟨690, 720, false⟩])] := by
  have hbm : booked_map d fd db = [] := by
    unfold booked_map
    have hfil : db.appointments.filter (fun a =>
        a.doctor_id == d && fd.contains a.date
          && a.status == Status.Booked) = [] := by
      rw [List.filter_eq_nil_iff]
      intro a ha
      simp only [Bool.and_eq_true, beq_iff_eq]
      rintro ⟨_, hs⟩
      exact hnb a ha hs
    rw [hfil]
    rfl
  have havf : db.availability.filter (fun w =>
      w.doctor_id == d && fd.contains w.date) = [⟨d, x, 480, 720⟩] := by
    rw [hav, List.filter_cons_of_pos (by simpa using hx), List.filter_nil]
  unfold check_doctor_availability
  rw [if_pos hdoc]
  dsimp only
  rw [havf, hbm]
  rfl

/-- C6 witness: the concrete database `dbMorning`. -/
theorem C6_morning_window_slots_witness :
    check_doctor_availability 1 [0] dbMorning =
      some [(0, [⟨480, 510, false⟩, ⟨510, 540, false⟩, ⟨540, 570, false⟩,
                 ⟨570, 600, false⟩, ⟨600, 630, false⟩, ⟨630, 660, false⟩,
                 ⟨660, 690, false⟩, ⟨690, 720, false⟩])] :=
  C6_morning_window_slots 1 0 [0] dbMorning (by decide) rfl (by decide)
    (by decide)

/-- C7: when the only Booked appointments of doctor `dID` sit at
(date `x`, 08:00) and at least one such row exists with `x` in the window,
every slot the resolver emits carries `is_booked = true` exactly when its
date key is `x` and its start time is 08:00 (minute 480) — in particular
Cancelled and Completed appointments never mark a slot, since the booked map
is built from Booked rows only. -/
theorem C7_booked_slot_marking (dID x : Nat) (fd : List Nat) (db : DB)
    (honly : ∀ a ∈ db.appointments, a.status = Status.Booked →
      a.doctor_id = dID → a.date = x ∧ a.time = 480)
    (hex : ∃ a ∈ db.appointments, a.doctor_id = dID ∧ a.date = x ∧
      a.time = 480 ∧ a.status = Status.Booked)
    (hx : fd.contains x = true)
    (res : List (Nat × List Slot))
    (hres : check_doctor_availability dID fd db = some res) :
    ∀ p ∈ res, ∀ s ∈ p.2,
      s.is_booked = (p.1 == x && s.time == 480) := by
  unfold check_doctor_availability at hres
  by_cases hdoc : db.users.contains dID = true
  · rw [if_pos hdoc] at hres
    intro p hp s hs
    have hSI : SlotIn res p.1 s :=
      ⟨p.2, by rw [Prod.mk.eta]; exact hp, hs⟩
    rw [← Option.some.inj hres] at hSI
    rcases slotIn_foldl (booked_map dID fd db) _ [] p.1 s hSI with
      h | ⟨w, _, hwd, hsw⟩
    · obtain ⟨sl, hmem, _⟩ := h
      exact absurd hmem (List.not_mem_nil _)
    · have hflag : s.is_booked = (booked_map dID fd db).any
          (fun q => q.1 == w.date && q.2 == s.time) :=
        walkSlots_spec (booked_map dID fd db) w.date w.start_time
          w.end_time s hsw
      rw [hwd] at hflag
      rw [hflag]
      obtain ⟨b, hb, hbd, hbx, hbt, hbs⟩ := hex
      have hin : (x, 480) ∈ booked_map dID fd db :=
        (mem_booked_map dID fd db (x, 480)).2
          ⟨b, hb, hbd, by rw [hbx]; exact hx, hbs, by rw [hbx, hbt]⟩
      cases hval : (p.1 == x && s.time == 480) with
      | false =>
          rw [List.any_eq_false]
          intro q hq
          obtain ⟨a, ha, h1, _, h3, rfl⟩ :=
            (mem_booked_map dID fd db q).1 hq
          obtain ⟨hax, hat⟩ := honly a ha h3 h1
          simp only [Bool.and_eq_true, beq_iff_eq]
          rintro ⟨hq1, hq2⟩
          have hcontra : (p.1 == x && s.time == 480) = true := by
            simp only [Bool.and_eq_true, beq_iff_eq]
            exact ⟨by rw [← hq1]; exact hax, by rw [← hq2]; exact hat⟩
          rw [hval] at hcontra
          exact Bool.noConfusion hcontra
      | true =>
          simp only [Bool.and_eq_true, beq_iff_eq] at hval
          rw [List.any_eq_true]
          refine ⟨(x, 480), hin, ?_⟩
          simp only [Bool.and_eq_true, beq_iff_eq]
          exact ⟨hval.1.symm, hval.2.symm⟩
  · rw [if_neg hdoc] at hres
    exact absurd hres (by simp)

/-- C7 witness: on `dbWin` (one Booked appointment of doctor 1 at date 5,
08:00, window 08:00–10:00), the resolver emits four concrete slots and the
flag of each equals the marking rule instantiated at it: true at 08:00,
false at 08:30, 09:00 and 09:30. -/
theorem C7_booked_slot_marking_witness :
    (Slot.mk 480 510 true).is_booked =
      (((5 : Nat), [Slot.mk 480 510 true, Slot.mk 510 540 false,
        Slot.mk 540 570 false, Slot.mk 570 600 false]).1 == 5
        && (Slot.mk 480 510 true).time == 480) ∧
    (Slot.mk 510 540 false).is_booked =
      (((5 : Nat), [Slot.mk 480 510 true, Slot.mk 510 540 false,
        Slot.mk 540 570 false, Slot.mk 570 600 false]).1 == 5
        && (Slot.mk 510 540 false).time == 480) ∧
    (Slot.mk 540 570 false).is_booked =
      (((5 : Nat), [Slot.mk 480 510 true, Slot.mk 510 540 false,
        Slot.mk 540 570 false, Slot.mk 570 600 false]).1 == 5
        && (Slot.mk 540 570 false).time == 480) ∧
    (Slot.mk 570 600 false).is_booked =
      (((5 : Nat), [Slot.mk 480 510 true, Slot.mk 510 540 false,
        Slot.mk 540 570 false, Slot.mk 570 600 false]).1 == 5
        && (Slot.mk 570 600 false).time == 480) := by
  have h := C7_booked_slot_marking 1 5 [5] dbWin (by decide) (by decide)
    (by decide)
    [(5, [Slot.mk 480 510 true, Slot.mk 510 540 false, Slot.mk 540 570 false,
      Slot.mk 570 600 false])] (by decide)
  exact ⟨h _ (List.mem_singleton_self _) (Slot.mk 480 510 true) (by decide),
    h _ (List.mem_singleton_self _) (Slot.mk 510 540 false) (by decide),
    h _ (List.mem_singleton_self _) (Slot.mk 540 570 false) (by decide),
    h _ (List.mem_singleton_self _) (Slot.mk 570 600 false) (by decide)⟩

end HMS
